import Mathlib

set_option maxHeartbeats 1000000

namespace ApplyDraft

/-! Shallow embedding of the IMAP draft-upload core of the repository
(the PowerShell script: `Wrap-Base64`, `Connect-Gmail`, `Send-ImapDraft`,
`Close-Gmail`, the MIME here-string and the target loop).
Bytes are modelled as `Nat` values below 256, text as `String`/`List Char`. -/

/-- UTF-8 encoding of one unicode scalar value: the byte layout produced by
`System.Text.Encoding.UTF8.GetBytes` for this code point. -/
def utf8EncodeChar (c : Char) : List Nat :=
  let n := c.toNat
  if n < 128 then [n]
  else if n < 2048 then [192 + n / 64, 128 + n % 64]
  else if n < 65536 then [224 + n / 4096, 128 + n / 64 % 64, 128 + n % 64]
  else [240 + n / 262144, 128 + n / 4096 % 64, 128 + n / 64 % 64, 128 + n % 64]

/-- The UTF-8 bytes of a string (`[System.Text.Encoding]::UTF8.GetBytes($s)`). -/
def utf8Bytes (s : String) : List Nat := s.data.bind utf8EncodeChar

/-- The standard base64 alphabet, as used by `[Convert]::ToBase64String`. -/
def b64Alphabet : List Char :=
  "ABCDEFGHIJKLMNOPQRSTUVWXYZabcdefghijklmnopqrstuvwxyz0123456789+/".data

/-- The characters that can occur in base64 output: the alphabet plus padding. -/
def b64chars : List Char := b64Alphabet ++ ['=']

/-- Character for a six-bit group (out-of-range indices, which the encoder
never produces, fall back to the default of the table lookup). -/
def sextetChar (n : Nat) : Char := b64Alphabet.getD n 'A'

/-- The four base64 characters of one full three-byte group. -/
def encode3 (a b c : Nat) : List Char :=
  [sextetChar (a / 4), sextetChar (a % 4 * 16 + b / 16),
   sextetChar (b % 16 * 4 + c / 64), sextetChar (c % 64)]

/-- Base64 text of a byte list: the (unwrapped) output of
`[Convert]::ToBase64String`, with standard `=` padding. -/
def base64Encode : List Nat → List Char
  | [] => []
  | [a] => [sextetChar (a / 4), sextetChar (a % 4 * 16), '=', '=']
  | [a, b] => [sextetChar (a / 4), sextetChar (a % 4 * 16 + b / 16),
               sextetChar (b % 16 * 4), '=']
  | a :: b :: c :: rest => encode3 a b c ++ base64Encode rest

/-- Index of a character in the base64 alphabet. -/
def sextetVal (c : Char) : Nat := b64Alphabet.indexOf c

/-- First byte reconstructed from sextet characters `x y`. -/
def b64Byte1 (x y : Char) : Nat := sextetVal x * 4 + sextetVal y / 16

/-- Second byte reconstructed from sextet characters `y z`. -/
def b64Byte2 (y z : Char) : Nat := sextetVal y % 16 * 16 + sextetVal z / 4

/-- Third byte reconstructed from sextet characters `z w`. -/
def b64Byte3 (z w : Char) : Nat := sextetVal z % 4 * 64 + sextetVal w

/-- Modelled from the spec: the repository never decodes base64 (the decoder
named by the spec property is `[Convert]::FromBase64String`, external to the
sources), so this is the standard base64 decoder: four characters yield three
bytes, `=` padding marks a short final group. -/
def base64Decode : List Char → List Nat
  | x :: y :: z :: w :: rest =>
    if z = '=' then [b64Byte1 x y]
    else if w = '=' then [b64Byte1 x y, b64Byte2 y z]
    else b64Byte1 x y :: b64Byte2 y z :: b64Byte3 z w :: base64Decode rest
  | _ => []

/-- The successive lines produced by the loop of `Wrap-Base64`: each iteration
takes `Min(76, remaining)` characters starting at the current index. -/
def wrapChunks : List Char → List (List Char)
  | [] => []
  | c :: cs => List.take 76 (c :: cs) :: wrapChunks (List.drop 76 (c :: cs))
termination_by l => l.length
decreasing_by simp [List.length_drop]; omega

/-- `Wrap-Base64`: the wrapped text, each chunk emitted by `AppendLine`, i.e.
followed by a CRLF line terminator. -/
def wrapBase64 (l : List Char) : List Char :=
  ((wrapChunks l).map (fun ln => ln ++ ['\r', '\n'])).join

/-- Line-break removal performed by a standard base64 decoder before decoding
(`FromBase64String` ignores white-space characters). -/
def stripNl (l : List Char) : List Char :=
  l.filter (fun c => c != '\r' && c != '\n')

theorem sextetVal_sextetChar_fin : ∀ i : Fin 64, sextetVal (sextetChar i.val) = i.val := by
  decide

theorem sextetVal_sextetChar {n : Nat} (h : n < 64) : sextetVal (sextetChar n) = n :=
  sextetVal_sextetChar_fin ⟨n, h⟩

theorem sextetChar_mem_b64chars (n : Nat) : sextetChar n ∈ b64chars := by
  unfold sextetChar
  rcases Nat.lt_or_ge n 64 with h | h
  · have : ∀ i : Fin 64, b64Alphabet.getD i.val 'A' ∈ b64chars := by decide
    exact this ⟨n, h⟩
  · have hlen : b64Alphabet.length ≤ n := by
      have : b64Alphabet.length = 64 := by decide
      omega
    rw [List.getD_eq_default _ _ hlen]
    decide

theorem sextetChar_ne_pad_fin : ∀ i : Fin 64, sextetChar i.val ≠ '=' := by decide

theorem sextetChar_ne_pad {n : Nat} (h : n < 64) : sextetChar n ≠ '=' :=
  sextetChar_ne_pad_fin ⟨n, h⟩

theorem base64Encode_mem_b64chars : ∀ (B : List Nat), ∀ c ∈ base64Encode B, c ∈ b64chars
  | [], c, hc => by simp [base64Encode] at hc
  | [a], c, hc => by
    simp only [base64Encode, List.mem_cons, List.not_mem_nil, or_false] at hc
    rcases hc with rfl | rfl | rfl | rfl
    · exact sextetChar_mem_b64chars _
    · exact sextetChar_mem_b64chars _
    · decide
    · decide
  | [a, b], c, hc => by
    simp only [base64Encode, List.mem_cons, List.not_mem_nil, or_false] at hc
    rcases hc with rfl | rfl | rfl | rfl
    · exact sextetChar_mem_b64chars _
    · exact sextetChar_mem_b64chars _
    · exact sextetChar_mem_b64chars _
    · decide
  | a :: b :: c' :: rest, c, hc => by
    simp only [base64Encode, encode3, List.cons_append, List.nil_append,
      List.mem_cons] at hc
    rcases hc with rfl | rfl | rfl | rfl | hc
    · exact sextetChar_mem_b64chars _
    · exact sextetChar_mem_b64chars _
    · exact sextetChar_mem_b64chars _
    · exact sextetChar_mem_b64chars _
    · exact base64Encode_mem_b64chars rest c hc

theorem base64_roundtrip : ∀ (B : List Nat), (∀ b ∈ B, b < 256) →
    base64Decode (base64Encode B) = B
  | [], _ => rfl
  | [a], h => by
    have ha : a < 256 := h a (by simp)
    simp only [base64Encode, base64Decode, if_pos rfl, if_true, b64Byte1]
    rw [sextetVal_sextetChar (by omega), sextetVal_sextetChar (by omega)]
    simp only [List.cons.injEq]
    exact ⟨by omega, trivial⟩
  | [a, b], h => by
    have ha : a < 256 := h a (by simp)
    have hb : b < 256 := h b (by simp)
    have hz : sextetChar (b % 16 * 4) ≠ '=' := sextetChar_ne_pad (by omega)
    simp only [base64Encode, base64Decode, if_neg hz, if_pos rfl, if_true, b64Byte1, b64Byte2]
    rw [sextetVal_sextetChar (by omega), sextetVal_sextetChar (by omega),
      sextetVal_sextetChar (by omega)]
    simp only [List.cons.injEq]
    exact ⟨by omega, by omega, trivial⟩
  | a :: b :: c :: rest, h => by
    have ha : a < 256 := h a (by simp)
    have hb : b < 256 := h b (by simp)
    have hc : c < 256 := h c (by simp)
    have ih := base64_roundtrip rest (fun x hx => h x (by simp [hx]))
    have hz : sextetChar (b % 16 * 4 + c / 64) ≠ '=' := sextetChar_ne_pad (by omega)
    have hw : sextetChar (c % 64) ≠ '=' := sextetChar_ne_pad (by omega)
    simp only [base64Encode, encode3, List.cons_append, List.nil_append]
    rw [base64Decode, if_neg hz, if_neg hw, ih]
    simp only [b64Byte1, b64Byte2, b64Byte3]
    rw [sextetVal_sextetChar (by omega), sextetVal_sextetChar (by omega),
      sextetVal_sextetChar (by omega), sextetVal_sextetChar (by omega)]
    simp only [List.cons.injEq]
    exact ⟨by omega, by omega, by omega, trivial⟩

theorem wrapChunks_length_le : ∀ (l : List Char), ∀ c ∈ wrapChunks l, c.length ≤ 76
  | [], c, hc => by simp [wrapChunks] at hc
  | x :: xs, c, hc => by
    rw [wrapChunks] at hc
    rcases List.mem_cons.mp hc with rfl | hc
    · simpa using List.length_take_le 76 (x :: xs)
    · exact wrapChunks_length_le _ c hc
termination_by l => l.length
decreasing_by simp [List.length_drop]; omega

theorem stripNl_wrapBase64 : ∀ (l : List Char),
    (∀ c ∈ l, c ≠ '\r' ∧ c ≠ '\n') → stripNl (wrapBase64 l) = l
  | [], _ => by rw [wrapBase64, wrapChunks]; rfl
  | x :: xs, h => by
    have hdrop : ∀ c ∈ List.drop 76 (x :: xs), c ≠ '\r' ∧ c ≠ '\n' :=
      fun c hc => h c (List.drop_subset _ _ hc)
    have htake : ∀ c ∈ List.take 76 (x :: xs), c ≠ '\r' ∧ c ≠ '\n' :=
      fun c hc => h c (List.take_subset _ _ hc)
    have ih := stripNl_wrapBase64 (List.drop 76 (x :: xs)) hdrop
    rw [wrapBase64, wrapChunks]
    simp only [List.map_cons, List.join_cons]
    rw [stripNl, List.filter_append, List.filter_append]
    have h1 : List.filter (fun c => c != '\r' && c != '\n') (List.take 76 (x :: xs))
        = List.take 76 (x :: xs) :=
      List.filter_eq_self.mpr (fun a ha => by
        have := htake a ha
        simp [this.1, this.2])
    have h2 : List.filter (fun c => c != '\r' && c != '\n') ['\r', '\n'] = [] := by decide
    have h3 : List.filter (fun c => c != '\r' && c != '\n')
        ((wrapChunks (List.drop 76 (x :: xs))).map (fun ln => ln ++ ['\r', '\n'])).join
        = List.drop 76 (x :: xs) := by
      have h4 := ih
      rw [wrapBase64, stripNl] at h4
      exact h4
    rw [h1, h2, h3]
    simp [List.take_append_drop]
termination_by l _h => l.length
decreasing_by simp [List.length_drop]; omega

/-- Characters of every wrapped chunk come from the wrapped text itself. -/
theorem wrapChunks_subset : ∀ (l : List Char), ∀ ln ∈ wrapChunks l, ∀ c ∈ ln, c ∈ l
  | [], ln, hln => by simp [wrapChunks] at hln
  | x :: xs, ln, hln => by
    rw [wrapChunks] at hln
    rcases List.mem_cons.mp hln with rfl | hln
    · exact fun c hc => List.take_subset _ _ hc
    · exact fun c hc => List.drop_subset _ _ (wrapChunks_subset _ ln hln c hc)
termination_by l => l.length
decreasing_by simp [List.length_drop]; omega

/-! MIME composer: the `$mime` here-string of the target loop, modelled line by
line.  Interpolated fields are single-line strings; a wrapped base64 variable
spliced on its own here-string line contributes its chunk lines plus the blank
line left by its trailing CRLF. -/

/-- The `config.json` fields used by the modelled core. -/
structure Config where
  name : String
  phone : String
  email : String
  gmail_app_password : String
deriving DecidableEq

/-- One entry of `targets.json` (fields used by the modelled core). -/
structure Target where
  firm : String
  location : String
  position : String
  openDate : String
  email : String
  source : String
  subject : String
  custom_p1 : String
  custom_p2 : String
  custom_p3 : String
  custom_p4 : String
deriving DecidableEq

/-- `Get-SafeFileName`: every character outside `[a-zA-Z0-9 ]` becomes `_`. -/
def safeChar (c : Char) : Char :=
  if ('a' ≤ c ∧ c ≤ 'z') ∨ ('A' ≤ c ∧ c ≤ 'Z') ∨ ('0' ≤ c ∧ c ≤ '9') ∨ c = ' ' then c else '_'

def getSafeFileName (s : String) : String := String.mk (s.data.map safeChar)

def cvFileName (cfg : Config) : String := getSafeFileName cfg.name ++ "_CV.pdf"

def portfolioFileName (cfg : Config) : String := getSafeFileName cfg.name ++ "_Portfolio.pdf"

def recFileName (cfg : Config) : String := getSafeFileName cfg.name ++ "_Recommendation_Letter.pdf"

def clFileName (cfg : Config) (t : Target) : String :=
  getSafeFileName cfg.name ++ "_COVER_LETTER_" ++ getSafeFileName t.firm ++ ".pdf"

/-- The lines a wrapped base64 variable contributes when spliced on a
here-string line of its own: its chunk lines, then the blank line produced by
its trailing CRLF meeting the here-string line break. -/
def chunkLines (bytes : List Nat) : List String :=
  (wrapChunks (base64Encode bytes)).map String.mk

/-- Header block of the `$mime` here-string (lines 209 through 215 of the
script: MIME-Version, From, To, Subject, Date, Content-Type, blank). -/
def headerLines (cfg : Config) (t : Target) (emlDate boundary : String) : List String :=
  ["MIME-Version: 1.0",
   "From: " ++ cfg.name ++ " <" ++ cfg.email ++ ">",
   "To: " ++ t.email,
   "Subject: " ++ t.subject,
   "Date: " ++ emlDate,
   "Content-Type: multipart/mixed; boundary=\"" ++ boundary ++ "\"",
   ""]

/-- The text/plain body part of the `$mime` here-string (lines 217 to 234). -/
def textPartLines (cfg : Config) (t : Target) : List String :=
  ["Content-Type: text/plain; charset=\"utf-8\"",
   "Content-Transfer-Encoding: 8bit",
   "",
   "Dear Hiring Manager,",
   "",
   "I am writing to apply for the " ++ t.position ++ " position at " ++ t.firm ++ ".",
   "",
   t.custom_p3,
   "",
   t.custom_p4 ++ ". I would welcome the opportunity to bring my design experience and skills to your team.",
   "",
   "Thank you for your time and consideration. I look forward to the possibility of discussing how I can contribute to your projects.",
   "",
   "Best regards,",
   cfg.name,
   cfg.phone,
   cfg.email,
   ""]

/-- One PDF attachment block (headers, blank, wrapped payload, trailing blank). -/
def attachmentLines (fileName : String) (bytes : List Nat) : List String :=
  ["Content-Type: application/pdf; name=\"" ++ fileName ++ "\"",
   "Content-Transfer-Encoding: base64",
   "Content-Disposition: attachment; filename=\"" ++ fileName ++ "\"",
   ""] ++ chunkLines bytes ++ [""]

/-- The lines of the composed `$mime` here-string.  `cl` is the cover-letter
PDF bytes when `Test-Path $pdfPath` succeeded (the `$coverLetterAttachment`
block), `none` otherwise. -/
def mimeLines (cfg : Config) (t : Target) (emlDate boundary : String)
    (cv portfolioPdf recPdf : List Nat) (cl : Option (List Nat)) : List String :=
  headerLines cfg t emlDate boundary ++
  ["--" ++ boundary] ++ textPartLines cfg t ++
  ["--" ++ boundary] ++ attachmentLines (cvFileName cfg) cv ++
  ["--" ++ boundary] ++ attachmentLines (portfolioFileName cfg) portfolioPdf ++
  ["--" ++ boundary] ++ attachmentLines (recFileName cfg) recPdf ++
  (match cl with
   | none => []
   | some b => ["--" ++ boundary] ++ attachmentLines (clFileName cfg t) b) ++
  ["--" ++ boundary ++ "--"]

/-- The composed MIME document as one string: the here-string lines joined by
its CRLF line breaks, no newline after the final `--boundary--` line. -/
def composeMime (cfg : Config) (t : Target) (emlDate boundary : String)
    (cv portfolioPdf recPdf : List Nat) (cl : Option (List Nat)) : String :=
  String.intercalate "\r\n" (mimeLines cfg t emlDate boundary cv portfolioPdf recPdf cl)

/-- Number of attachment parts of a composed message: CV, portfolio and
recommendation letter, plus the cover letter when its PDF was rendered. -/
def numAttachments (cl : Option (List Nat)) : Nat :=
  match cl with
  | none => 3
  | some _ => 4

/-! Boundary-delimiter counting for the composed document (claim C7). -/

theorem delim_head (b : String) : ("--" ++ b).data.head? = some '-' := rfl

theorem closing_head (b : String) : ("--" ++ b ++ "--").data.head? = some '-' := rfl

/-- A line that does not begin with a dash is neither the `--boundary`
delimiter line nor the `--boundary--` closing line. -/
theorem ne_delim_of_head {s : String} (h : s.data.head? ≠ some '-') (b : String) :
    s ≠ "--" ++ b ∧ s ≠ "--" ++ b ++ "--" :=
  ⟨fun e => h (e ▸ delim_head b), fun e => h (e ▸ closing_head b)⟩

theorem delim_ne_closing (b : String) : ("--" ++ b) ≠ ("--" ++ b ++ "--") := by
  intro h
  have hlen := congrArg (fun s => s.data.length) h
  simp [String.data_append] at hlen

/-- Dash-headed lines never occur in the base64 chunk lines of an attachment:
the base64 alphabet (plus padding) contains no dash. -/
theorem not_mem_chunkLines {x : String} (hx : x.data.head? = some '-')
    (bytes : List Nat) : x ∉ chunkLines bytes := by
  intro hmem
  obtain ⟨ln, hln, hEq⟩ := List.mem_map.mp hmem
  have hdata : x.data = ln := by rw [← hEq]
  rw [hdata] at hx
  have hdash : '-' ∈ ln := by
    cases ln with
    | nil => simp at hx
    | cons a l => simp at hx; simp [hx]
  have h1 : '-' ∈ base64Encode bytes := wrapChunks_subset _ ln hln '-' hdash
  have h2 : '-' ∈ b64chars := base64Encode_mem_b64chars _ '-' h1
  have : '-' ∉ b64chars := by decide
  exact this h2

/-- Dash-headed lines never occur in a header block. -/
theorem not_mem_headerLines {x : String} (hx : x.data.head? = some '-')
    (cfg : Config) (t : Target) (d b : String) : x ∉ headerLines cfg t d b := by
  intro hmem
  simp only [headerLines, List.mem_cons, List.not_mem_nil, or_false] at hmem
  rcases hmem with rfl|rfl|rfl|rfl|rfl|rfl|rfl <;> revert hx <;>
    first
      | exact fun hx => by rw [show ("From: " ++ cfg.name ++ " <" ++ cfg.email ++ ">").data.head? = some 'F' from rfl] at hx; simp at hx
      | exact fun hx => by rw [show ("To: " ++ t.email).data.head? = some 'T' from rfl] at hx; simp at hx
      | exact fun hx => by rw [show ("Subject: " ++ t.subject).data.head? = some 'S' from rfl] at hx; simp at hx
      | exact fun hx => by rw [show ("Date: " ++ d).data.head? = some 'D' from rfl] at hx; simp at hx
      | exact fun hx => by rw [show ("Content-Type: multipart/mixed; boundary=\"" ++ b ++ "\"").data.head? = some 'C' from rfl] at hx; simp at hx
      | decide

/-- Dash-headed lines never occur in an attachment block. -/
theorem not_mem_attachmentLines {x : String} (hx : x.data.head? = some '-')
    (fn : String) (bytes : List Nat) : x ∉ attachmentLines fn bytes := by
  intro hmem
  simp only [attachmentLines, List.append_assoc, List.mem_append, List.mem_cons,
    List.not_mem_nil, or_false, List.mem_singleton] at hmem
  rcases hmem with (rfl|rfl|rfl|rfl) | hmem | rfl
  · rw [show ("Content-Type: application/pdf; name=\"" ++ fn ++ "\"").data.head? = some 'C' from rfl] at hx
    simp at hx
  · simp at hx
  · rw [show ("Content-Disposition: attachment; filename=\"" ++ fn ++ "\"").data.head? = some 'C' from rfl] at hx
    simp at hx
  · simp at hx
  · exact not_mem_chunkLines hx bytes hmem
  · simp at hx

/-- Dash-headed lines occur in the text part only if they coincide with one of
the free-text fields spliced into the body. -/
theorem not_mem_textPartLines {x : String} (hx : x.data.head? = some '-')
    (cfg : Config) (t : Target)
    (h3 : x ≠ t.custom_p3)
    (h4 : x ≠ t.custom_p4 ++ ". I would welcome the opportunity to bring my design experience and skills to your team.")
    (hn : x ≠ cfg.name) (hp : x ≠ cfg.phone) (he : x ≠ cfg.email) :
    x ∉ textPartLines cfg t := by
  intro hmem
  simp only [textPartLines, List.mem_cons, List.not_mem_nil, or_false] at hmem
  rcases hmem with rfl|rfl|rfl|rfl|rfl|rfl|rfl|h|rfl|h|rfl|rfl|rfl|rfl|h|h|h|rfl
  · simp at hx
  · simp at hx
  · simp at hx
  · simp at hx
  · simp at hx
  · rw [show ("I am writing to apply for the " ++ t.position ++ " position at " ++ t.firm ++ ".").data.head? = some 'I' from rfl] at hx
    simp at hx
  · simp at hx
  · exact h3 h
  · simp at hx
  · exact h4 h
  · simp at hx
  · simp at hx
  · simp at hx
  · simp at hx
  · exact hn h
  · exact hp h
  · exact he h
  · simp at hx

/-- C7: the composed document contains exactly `len(attachments) + 1`
boundary-delimiter lines (one text part plus one part per attachment, three
fixed PDFs and the optional cover letter, in that order), and exactly one
closing `--boundary--` line, which is the final line.  The hypotheses are the
boundary non-collision invariant of the data model for the free-text lines;
for base64 payload lines non-collision is proved from the alphabet. -/
theorem c7_compose_part_count (cfg : Config) (t : Target) (emlDate boundary : String)
    (cv portfolioPdf recPdf : List Nat) (cl : Option (List Nat))
    (h3 : t.custom_p3 ≠ "--" ++ boundary ∧ t.custom_p3 ≠ "--" ++ boundary ++ "--")
    (h4 : t.custom_p4 ++ ". I would welcome the opportunity to bring my design experience and skills to your team." ≠ "--" ++ boundary ∧
          t.custom_p4 ++ ". I would welcome the opportunity to bring my design experience and skills to your team." ≠ "--" ++ boundary ++ "--")
    (hn : cfg.name ≠ "--" ++ boundary ∧ cfg.name ≠ "--" ++ boundary ++ "--")
    (hp : cfg.phone ≠ "--" ++ boundary ∧ cfg.phone ≠ "--" ++ boundary ++ "--")
    (he : cfg.email ≠ "--" ++ boundary ∧ cfg.email ≠ "--" ++ boundary ++ "--") :
    (mimeLines cfg t emlDate boundary cv portfolioPdf recPdf cl).count ("--" ++ boundary)
        = numAttachments cl + 1 ∧
    (mimeLines cfg t emlDate boundary cv portfolioPdf recPdf cl).count ("--" ++ boundary ++ "--") = 1 ∧
    (mimeLines cfg t emlDate boundary cv portfolioPdf recPdf cl).getLast?
        = some ("--" ++ boundary ++ "--") := by
  have hdl : ("--" ++ boundary).data.head? = some '-' := delim_head boundary
  have hcl : ("--" ++ boundary ++ "--").data.head? = some '-' := closing_head boundary
  have hne := delim_ne_closing boundary
  have hH1 := List.count_eq_zero.mpr (not_mem_headerLines hdl cfg t emlDate boundary)
  have hH2 := List.count_eq_zero.mpr (not_mem_headerLines hcl cfg t emlDate boundary)
  have hT1 := List.count_eq_zero.mpr
    (not_mem_textPartLines hdl cfg t h3.1.symm h4.1.symm hn.1.symm hp.1.symm he.1.symm)
  have hT2 := List.count_eq_zero.mpr
    (not_mem_textPartLines hcl cfg t h3.2.symm h4.2.symm hn.2.symm hp.2.symm he.2.symm)
  have hA1 := fun fn bytes => List.count_eq_zero.mpr (not_mem_attachmentLines hdl fn bytes)
  have hA2 := fun fn bytes => List.count_eq_zero.mpr (not_mem_attachmentLines hcl fn bytes)
  rcases cl with _ | b
  · refine ⟨?_, ?_, ?_⟩
    · simp only [mimeLines, numAttachments, List.count_append, hH1, hT1, hA1]
      simp [hne]
    · simp only [mimeLines, numAttachments, List.count_append, hH2, hT2, hA2]
      simp [hne.symm]
    · simp only [mimeLines, List.getLast?_append, List.getLast?_concat]
      simp
  · refine ⟨?_, ?_, ?_⟩
    · simp only [mimeLines, numAttachments, List.count_append, hH1, hT1, hA1]
      simp [hne]
    · simp only [mimeLines, numAttachments, List.count_append, hH2, hT2, hA2]
      simp [hne.symm]
    · simp only [mimeLines, List.getLast?_append, List.getLast?_concat]
      simp

/-- Witness for C7 at a concrete message: two-character boundary, three small
attachments, cover letter present. -/
theorem c7_compose_part_count_witness :
    (mimeLines ⟨"N", "P", "E", "W"⟩
        ⟨"F", "L", "Pos", "O", "TE", "S", "Su", "p1", "p2", "p3", "p4"⟩
        "D" "bb" [0, 1, 2] [3, 4] [5] (some [6, 7])).count ("--" ++ "bb") =
      numAttachments (some [6, 7]) + 1 := by
  have h := c7_compose_part_count ⟨"N", "P", "E", "W"⟩
    ⟨"F", "L", "Pos", "O", "TE", "S", "Su", "p1", "p2", "p3", "p4"⟩
    "D" "bb" [0, 1, 2] [3, 4] [5] (some [6, 7])
    (by constructor <;> decide) (by constructor <;> decide) (by constructor <;> decide)
    (by constructor <;> decide) (by constructor <;> decide)
  exact h.1

/-- C6: decoding the wrapped base64 text of any byte buffer recovers the
buffer exactly; every output line holds at most 76 characters excluding its
terminator, and the wrapped text consists of exactly those lines, each
followed by a CRLF line ending. -/
theorem c6_encode_decode_roundtrip (B : List Nat) (h : ∀ b ∈ B, b < 256) :
    base64Decode (stripNl (wrapBase64 (base64Encode B))) = B ∧
    (∀ ln ∈ wrapChunks (base64Encode B), ln.length ≤ 76) ∧
    wrapBase64 (base64Encode B) =
      ((wrapChunks (base64Encode B)).map (fun ln => ln ++ ['\r', '\n'])).join := by
  refine ⟨?_, wrapChunks_length_le _, rfl⟩
  have hchars : ∀ c ∈ base64Encode B, c ≠ '\r' ∧ c ≠ '\n' := by
    intro c hc
    have hmem := base64Encode_mem_b64chars B c hc
    have hall : ∀ c ∈ b64chars, c ≠ '\r' ∧ c ≠ '\n' := by decide
    exact hall c hmem
  rw [stripNl_wrapBase64 (base64Encode B) hchars]
  exact base64_roundtrip B h

/-- Witness for C6 at a concrete buffer of five bytes (length 2 mod 3, so the
padded final group is exercised). -/
theorem c6_encode_decode_roundtrip_witness :
    base64Decode (stripNl (wrapBase64 (base64Encode [77, 200, 3, 0, 255]))) = [77, 200, 3, 0, 255] :=
  (c6_encode_decode_roundtrip [77, 200, 3, 0, 255] (by decide)).1

/-! Transport, correlator and session model.  The read side of the TLS stream
is the list of lines the server will serve; the write side is a trace of
events.  Tagged command lines are written as `a<tag> <text>`, recorded
structurally as the pair of the numeric tag and the rest of the line. -/

/-- One write effect on the connection. -/
inductive WriteEvent where
  | cmd (tag : Nat) (text : String)
  | line (text : String)
  | raw (bytes : List Nat)
  | closeSsl
  | closeTcp
deriving DecidableEq

/-- The `$conn` hashtable: handles plus the `cmd` counter.  The handle fields
are opaque tokens; only `cmd` is ever read or written by the modelled code. -/
structure Conn where
  tcp : Nat
  ssl : Nat
  reader : Nat
  writer : Nat
  cmd : Nat
deriving DecidableEq

/-- `$reader.ReadLine()`: the next line, or `none` at end of stream (where
`StreamReader.ReadLine` yields null, which PowerShell matches like `""`). -/
def readLine : List String → Option String × List String
  | [] => (none, [])
  | l :: rest => (some l, rest)

/-- The textual tag of command number `tag` followed by a space: the pattern
of the anchored regex `"^a<n> "` used by the completion-wait loops. -/
def tagPat (tag : Nat) : List Char := 'a' :: (Nat.repr tag).data ++ [' ']

def lineHasTag (tag : Nat) (l : String) : Bool := (tagPat tag).isPrefixOf l.data

/-- The `do { $resp = ReadLine } while ($resp -notmatch "^a<n> ")` loop:
discard lines until one carries the tag.  `none` when the stream is
exhausted first, in which case the loop never terminates (null forever). -/
def waitForTagged (tag : Nat) : List String → Option (String × List String)
  | [] => none
  | l :: rest => if lineHasTag tag l then some (l, rest) else waitForTagged tag rest

/-- `$resp -match "^\+"`: the line begins with a plus. -/
def startsPlus (s : String) : Bool := ['+'].isPrefixOf s.data

/-- Substring search: does `pat` occur contiguously in the list? -/
def containsSeq (pat : List Char) : List Char → Bool
  | [] => pat.isEmpty
  | c :: rest => pat.isPrefixOf (c :: rest) || containsSeq pat rest

/-- `$resp -match "OK"`: case-insensitive substring match of the regex `OK`. -/
def hasOK (s : String) : Bool := containsSeq ['O', 'K'] (s.data.map Char.toUpper)

/-- `$resp -match "^a1 OK"` for the LOGIN completion. -/
def loginOk (s : String) : Bool := ("a1 OK".data).isPrefixOf s.data

/-- Rest of the APPEND command line after the tag:
`APPEND "[Gmail]/Drafts" (\Draft) {<byteCount>}`. -/
def appendText (byteCount : Nat) : String :=
  "APPEND \"[Gmail]/Drafts\" (\\Draft) \x7b" ++ Nat.repr byteCount ++ "\x7d"

/-- Rest of the LOGIN command line after the hardcoded tag `a1`. -/
def loginText (user pass : String) : String :=
  "LOGIN \"" ++ user ++ "\" \"" ++ pass ++ "\""

/-- Result of one `Send-ImapDraft` call: socket writes, console writes, and
either the returned boolean with the updated `$conn` and remaining input, or
`none` when the completion-wait loop never terminates. -/
structure SendOutcome where
  trace : List WriteEvent
  console : List String
  result : Option (Bool × Conn × List String)
deriving DecidableEq

/-- `Send-ImapDraft`: UTF-8 byte count of the composed message, tag taken from
`$conn.cmd` which is incremented at once, APPEND command line, continuation
check, raw literal write plus the closing `WriteLine("")` CRLF, then the
tagged completion wait and the `"OK"` match. -/
def sendImapDraft (conn : Conn) (mimeMessage : String) (input : List String) : SendOutcome :=
  let msgBytes := utf8Bytes mimeMessage
  let byteCount := msgBytes.length
  let conn1 : Conn := { conn with cmd := conn.cmd + 1 }
  let w1 := WriteEvent.cmd conn.cmd (appendText byteCount)
  let r := readLine input
  let resp := r.1.getD ""
  if !startsPlus resp then
    ⟨[w1], ["  ERROR: IMAP APPEND rejected: " ++ resp], some (false, conn1, r.2)⟩
  else
    let tr := [w1, WriteEvent.raw msgBytes, WriteEvent.line ""]
    match waitForTagged conn.cmd r.2 with
    | none => ⟨tr, [], none⟩
    | some (resp2, input2) =>
      if hasOK resp2 then ⟨tr, [], some (true, conn1, input2)⟩
      else ⟨tr, ["  ERROR: APPEND failed: " ++ resp2], some (false, conn1, input2)⟩

/-- Result of `Connect-Gmail`: writes, console, and the fresh `$conn` with
remaining input, or `none` on login failure (`exit 1`) or stream exhaustion. -/
structure ConnectOutcome where
  trace : List WriteEvent
  console : List String
  result : Option (Conn × List String)
deriving DecidableEq

/-- `Connect-Gmail`: discard the greeting, write `a1 LOGIN "<user>" "<pass>"`,
wait for the `a1`-tagged completion, require it to begin `a1 OK` (otherwise
`exit 1` ends the script with the TLS and TCP handles still open), and return
the connection hashtable with `cmd = 2`. -/
def connectGmail (user pass : String) (input : List String) : ConnectOutcome :=
  let g := readLine input
  let w := WriteEvent.cmd 1 (loginText user pass)
  match waitForTagged 1 g.2 with
  | none => ⟨[w], [], none⟩
  | some (resp, input2) =>
    if loginOk resp then
      ⟨[w], ["Gmail connected."], some (⟨0, 1, 2, 3, 2⟩, input2)⟩
    else
      ⟨[w], ["ERROR: Gmail login failed: " ++ resp], none⟩

/-- `Close-Gmail`: write the hardcoded `a99 LOGOUT`, read one line, close the
TLS stream, close the socket. -/
def closeGmail (conn : Conn) (input : List String) : List WriteEvent × List String :=
  ([WriteEvent.cmd 99 "LOGOUT", WriteEvent.closeSsl, WriteEvent.closeTcp], (readLine input).2)

/-- One row of `tracker.csv` as assembled in the target loop. -/
structure TrackerRow where
  firm : String
  location : String
  position : String
  openDate : String
  appliedDate : String
  email : String
  source : String
  status : String
deriving DecidableEq

/-- Per-target data of one loop iteration: the target, the cover-letter PDF
bytes when `Test-Path $pdfPath` succeeded, the random part of the generated
boundary, and the two `Get-Date` readings of the iteration. -/
structure BatchItem where
  target : Target
  clBytes : Option (List Nat)
  guidPart : String
  emlDate : String
  today : String
deriving DecidableEq

/-- The `[PSCustomObject]` tracker row appended for a processed target:
`Status` is the constant `"Generated"` on every path. -/
def rowOf (it : BatchItem) : TrackerRow :=
  ⟨it.target.firm, it.target.location, it.target.position, it.target.openDate,
   it.today, it.target.email, it.target.source, "Generated"⟩

/-- Result of the target loop: socket writes, tracker rows accumulated, and
the connection with remaining input when the loop ran to completion. -/
structure BatchOutcome where
  trace : List WriteEvent
  rows : List TrackerRow
  result : Option (Conn × List String)
deriving DecidableEq

/-- The `foreach ($target in $targets)` loop.  A target already marked
`Generated` in the existing tracker is skipped (its old rows are re-appended
and no command is sent).  Otherwise the MIME document is composed with the
iteration's boundary, `Send-ImapDraft` runs, and one `Generated` row is
appended whatever boolean it returned.  File-system side effects (HTML, PDF
rendering) are external; `clBytes` carries their observable outcome. -/
def runBatch (cfg : Config) (cv portfolioPdf recPdf : List Nat)
    (existing : List TrackerRow) (conn : Conn) (idx : Nat) (input : List String) :
    List BatchItem → BatchOutcome
  | [] => ⟨[], [], some (conn, input)⟩
  | it :: its =>
    let index := idx + 1
    let already := existing.filter
      (fun r => r.firm == it.target.firm && r.status == "Generated")
    if already.isEmpty then
      let boundary := "----=_Part_" ++ Nat.repr index ++ "_" ++ it.guidPart
      let mime := composeMime cfg it.target it.emlDate boundary cv portfolioPdf recPdf it.clBytes
      let s := sendImapDraft conn mime input
      match s.result with
      | none => ⟨s.trace, [], none⟩
      | some (_ok, conn2, input2) =>
        let rest := runBatch cfg cv portfolioPdf recPdf existing conn2 index input2 its
        ⟨s.trace ++ rest.trace, rowOf it :: rest.rows, rest.result⟩
    else
      let rest := runBatch cfg cv portfolioPdf recPdf existing conn index input its
      ⟨rest.trace, already ++ rest.rows, rest.result⟩

/-- Result of one whole script run: socket writes and the exported
`tracker.csv` rows (`none` when the script exits or hangs before the export). -/
structure ScriptOutcome where
  trace : List WriteEvent
  rows : Option (List TrackerRow)
deriving DecidableEq

/-- The script body: `Connect-Gmail`, the target loop, `Close-Gmail`, CSV
export.  Login failure (`exit 1`) and a hung completion wait never reach
`Close-Gmail` or the export. -/
def runScript (cfg : Config) (cv portfolioPdf recPdf : List Nat)
    (existing : List TrackerRow) (input : List String) (items : List BatchItem) :
    ScriptOutcome :=
  let c := connectGmail cfg.email cfg.gmail_app_password input
  match c.result with
  | none => ⟨c.trace, none⟩
  | some (conn, input1) =>
    let b := runBatch cfg cv portfolioPdf recPdf existing conn 0 input1 items
    match b.result with
    | none => ⟨c.trace ++ b.trace, none⟩
    | some (conn2, input2) =>
      let cg := closeGmail conn2 input2
      ⟨c.trace ++ b.trace ++ cg.1, some b.rows⟩

/-- The numeric tags of the tagged command lines of a trace, in order. -/
def cmdTags : List WriteEvent → List Nat
  | [] => []
  | WriteEvent.cmd t _ :: r => t :: cmdTags r
  | _ :: r => cmdTags r

/-- Raw literal writes in a trace. -/
def isRawEvent : WriteEvent → Bool
  | WriteEvent.raw _ => true
  | _ => false

/-- C1: the byteCount in the APPEND command line is the exact UTF-8 byte
length of the composed MIME document handed to `Send-ImapDraft` (computed from
the finished document inside the call, before any write), and on the
continuation path the transport receives exactly those bytes unmodified,
followed by a single CRLF-terminated empty `WriteLine`. -/
theorem c1_byteCount_exact (conn : Conn) (mimeMessage : String) (input : List String) :
    (sendImapDraft conn mimeMessage input).trace.head? =
      some (WriteEvent.cmd conn.cmd (appendText (utf8Bytes mimeMessage).length)) ∧
    (∀ resp rest, input = resp :: rest → startsPlus resp = true →
      (sendImapDraft conn mimeMessage input).trace =
        [WriteEvent.cmd conn.cmd (appendText (utf8Bytes mimeMessage).length),
         WriteEvent.raw (utf8Bytes mimeMessage), WriteEvent.line ""]) := by
  constructor
  · rw [sendImapDraft]
    split
    · rfl
    · split <;> first | rfl | split <;> rfl
  · intro resp rest hin hplus
    subst hin
    rw [sendImapDraft]
    simp only [readLine, Option.getD_some, hplus, Bool.not_true]
    simp only [Bool.false_eq_true, if_false]
    split <;> first | rfl | split <;> rfl

/-- Witness for C1: a concrete successful exchange. -/
theorem c1_byteCount_exact_witness :
    (sendImapDraft ⟨0, 1, 2, 3, 2⟩ "Msg" ["+", "a2 OK done"]).trace =
      [WriteEvent.cmd 2 (appendText (utf8Bytes "Msg").length),
       WriteEvent.raw (utf8Bytes "Msg"), WriteEvent.line ""] :=
  (c1_byteCount_exact ⟨0, 1, 2, 3, 2⟩ "Msg" ["+", "a2 OK done"]).2 "+" ["a2 OK done"]
    rfl (by decide)

/-- C4: when the line read after the APPEND command does not begin with `+`,
the call returns failure at once with exactly the command line written — the
literal bytes are never sent — and the server line is surfaced verbatim in the
error message. -/
theorem c4_rejected_continuation (conn : Conn) (mimeMessage : String)
    (resp : String) (rest : List String) (hplus : startsPlus resp = false) :
    sendImapDraft conn mimeMessage (resp :: rest) =
      ⟨[WriteEvent.cmd conn.cmd (appendText (utf8Bytes mimeMessage).length)],
       ["  ERROR: IMAP APPEND rejected: " ++ resp],
       some (false, { conn with cmd := conn.cmd + 1 }, rest)⟩ := by
  rw [sendImapDraft]
  simp [readLine, hplus]

/-- Witness for C4: the quota-exceeded rejection of the spec scenario. -/
theorem c4_rejected_continuation_witness :
    sendImapDraft ⟨0, 1, 2, 3, 2⟩ "Msg" ["a2 NO [CANNOT] quota exceeded"] =
      ⟨[WriteEvent.cmd 2 (appendText (utf8Bytes "Msg").length)],
       ["  ERROR: IMAP APPEND rejected: " ++ "a2 NO [CANNOT] quota exceeded"],
       some (false, ⟨0, 1, 2, 3, 3⟩, [])⟩ :=
  c4_rejected_continuation ⟨0, 1, 2, 3, 2⟩ "Msg" "a2 NO [CANNOT] quota exceeded" [] (by decide)

/-- C10: every `Send-ImapDraft` call takes its tag from the current value of
the session counter (the first write carries `conn.cmd`), and on every
returning path — success, rejected continuation, non-OK completion — the
counter of the returned session is incremented by exactly one while the
stream, reader, writer and socket fields are untouched. -/
theorem c10_one_tag_per_call (conn : Conn) (mimeMessage : String) (input : List String) :
    (sendImapDraft conn mimeMessage input).trace.head? =
      some (WriteEvent.cmd conn.cmd (appendText (utf8Bytes mimeMessage).length)) ∧
    (∀ ok conn2 rest2,
      (sendImapDraft conn mimeMessage input).result = some (ok, conn2, rest2) →
      conn2 = { conn with cmd := conn.cmd + 1 }) := by
  constructor
  · rw [sendImapDraft]
    split
    · rfl
    · split <;> first | rfl | split <;> rfl
  · intro ok conn2 rest2 hres
    rw [sendImapDraft] at hres
    revert hres
    split
    · intro hres
      exact (congrArg (fun p => p.2.1) (Option.some.inj hres)).symm
    · split
      · intro hres
        exact Option.noConfusion hres
      · split <;> intro hres <;>
          exact (congrArg (fun p => p.2.1) (Option.some.inj hres)).symm

/-- Witness for C10: the session returned by a concrete call. -/
theorem c10_one_tag_per_call_witness :
    (⟨0, 1, 2, 3, 3⟩ : Conn) = { (⟨0, 1, 2, 3, 2⟩ : Conn) with cmd := 2 + 1 } :=
  (c10_one_tag_per_call ⟨0, 1, 2, 3, 2⟩ "Msg" ["+", "a2 OK done"]).2 true
    ⟨0, 1, 2, 3, 3⟩ [] (by decide)

/-- C8: a LOGIN completion that is not `a1 OK` ends the script at once
(`exit 1`): the whole run writes exactly the one LOGIN command — no APPEND is
ever attempted, LOGIN is not retried — and nothing is exported. -/
theorem c8_login_failure (cfg : Config) (cv portfolioPdf recPdf : List Nat)
    (existing : List TrackerRow) (items : List BatchItem)
    (g resp : String) (ls rest : List String)
    (hwait : waitForTagged 1 ls = some (resp, rest))
    (hnotok : loginOk resp = false) :
    runScript cfg cv portfolioPdf recPdf existing (g :: ls) items =
      ⟨[WriteEvent.cmd 1 (loginText cfg.email cfg.gmail_app_password)], none⟩ := by
  rw [runScript, connectGmail]
  simp [readLine, hwait, hnotok]

/-- Witness for C8: the authentication-failure scenario of the spec. -/
theorem c8_login_failure_witness :
    runScript ⟨"N", "P", "E", "W"⟩ [] [] [] []
        ["* OK Gimap ready", "a1 NO [AUTHENTICATIONFAILED] Invalid credentials"]
        [⟨⟨"F", "L", "Pos", "O", "TE", "S", "Su", "p1", "p2", "p3", "p4"⟩, none, "g", "D", "T"⟩] =
      ⟨[WriteEvent.cmd 1 (loginText "E" "W")], none⟩ :=
  c8_login_failure ⟨"N", "P", "E", "W"⟩ [] [] [] []
    [⟨⟨"F", "L", "Pos", "O", "TE", "S", "Su", "p1", "p2", "p3", "p4"⟩, none, "g", "D", "T"⟩]
    "* OK Gimap ready" "a1 NO [AUTHENTICATIONFAILED] Invalid credentials" _ []
    (by decide) (by decide)

/-! Canonical successful-server inputs, used to run whole sessions. -/

/-- Server lines for `n` successful APPEND exchanges when the next command
number is `c`: a continuation `+` then an `a<c> OK` completion, repeatedly. -/
def okInput : Nat → Nat → List String
  | _, 0 => []
  | c, n + 1 => "+" :: ("a" ++ Nat.repr c ++ " OK") :: okInput (c + 1) n

theorem cmdTags_append : ∀ (a b : List WriteEvent), cmdTags (a ++ b) = cmdTags a ++ cmdTags b
  | [], _ => rfl
  | e :: a, b => by cases e <;> simp [cmdTags, cmdTags_append a b]

theorem data_okLine (c : Nat) :
    ("a" ++ Nat.repr c ++ " OK").data = 'a' :: ((Nat.repr c).data ++ [' ', 'O', 'K']) := by
  simp [String.data_append]

theorem lineHasTag_okLine (c : Nat) : lineHasTag c ("a" ++ Nat.repr c ++ " OK") = true := by
  unfold lineHasTag tagPat
  rw [data_okLine]
  have : ('a' :: ((Nat.repr c).data ++ [' '])) ++ ['O', 'K'] =
      'a' :: ((Nat.repr c).data ++ [' ', 'O', 'K']) := by simp
  rw [← this]
  exact List.isPrefixOf_iff_prefix.mpr ⟨['O', 'K'], rfl⟩

theorem containsSeq_OK_suffix : ∀ (l : List Char), containsSeq ['O', 'K'] (l ++ ['O', 'K']) = true
  | [] => by decide
  | c :: rest => by
    rw [List.cons_append, containsSeq]
    simp [containsSeq_OK_suffix rest]

theorem hasOK_okLine (c : Nat) : hasOK ("a" ++ Nat.repr c ++ " OK") = true := by
  unfold hasOK
  rw [data_okLine]
  have hshape : List.map Char.toUpper ('a' :: ((Nat.repr c).data ++ [' ', 'O', 'K'])) =
      ('A' :: (List.map Char.toUpper (Nat.repr c).data ++ [' '])) ++ ['O', 'K'] := by
    simp [List.map_append]
  rw [hshape]
  exact containsSeq_OK_suffix _

/-- One fully successful APPEND exchange of `Send-ImapDraft`. -/
theorem sendImapDraft_ok (conn : Conn) (m : String) (ls : List String) :
    sendImapDraft conn m ("+" :: ("a" ++ Nat.repr conn.cmd ++ " OK") :: ls) =
      ⟨[WriteEvent.cmd conn.cmd (appendText (utf8Bytes m).length),
        WriteEvent.raw (utf8Bytes m), WriteEvent.line ""], [],
       some (true, { conn with cmd := conn.cmd + 1 }, ls)⟩ := by
  rw [sendImapDraft]
  have h1 : startsPlus "+" = true := by decide
  simp only [readLine, Option.getD_some, h1, Bool.not_true, Bool.false_eq_true, if_false]
  rw [waitForTagged]
  simp only [lineHasTag_okLine, if_true, hasOK_okLine]

/-- Running the target loop against the canonical successful input: the APPEND
tags are consecutive from the session counter, one `Generated` row per item,
and the loop completes with the counter advanced by the item count. -/
theorem runBatch_okInput (cfg : Config) (cv portfolioPdf recPdf : List Nat) :
    ∀ (items : List BatchItem) (conn : Conn) (idx : Nat) (rest : List String),
    cmdTags (runBatch cfg cv portfolioPdf recPdf [] conn idx
        (okInput conn.cmd items.length ++ rest) items).trace =
      (List.range items.length).map (fun i => conn.cmd + i) ∧
    (runBatch cfg cv portfolioPdf recPdf [] conn idx
        (okInput conn.cmd items.length ++ rest) items).rows = items.map rowOf ∧
    (runBatch cfg cv portfolioPdf recPdf [] conn idx
        (okInput conn.cmd items.length ++ rest) items).result =
      some ({ conn with cmd := conn.cmd + items.length }, rest)
  | [], conn, idx, rest => by
    rw [List.length_nil, okInput, runBatch]
    simp [cmdTags]
  | it :: its, conn, idx, rest => by
    have ih := runBatch_okInput cfg cv portfolioPdf recPdf its
      { conn with cmd := conn.cmd + 1 } (idx + 1) rest
    rw [List.length_cons, okInput, List.cons_append, List.cons_append, runBatch]
    simp only [List.filter_nil, List.isEmpty_nil, if_true]
    rw [sendImapDraft_ok]
    dsimp only
    dsimp only at ih
    refine ⟨?_, ?_, ?_⟩
    · rw [cmdTags_append, ih.1]
      simp only [cmdTags]
      rw [List.range_succ_eq_map, List.map_cons, List.map_map]
      simp only [Nat.add_zero, List.singleton_append]
      congr 1
      exact List.map_congr_left (fun i _ => by simp only [Function.comp_apply]; omega)
    · rw [ih.2.1]
      simp
    · rw [ih.2.2]
      have harith : conn.cmd + 1 + its.length = conn.cmd + (its.length + 1) := by omega
      rw [harith]

/-- A whole successful run: greeting, a LOGIN completion that matches tag `a1`
and begins `a1 OK`, the canonical APPEND exchanges, then whatever remains for
the LOGOUT read.  Command tags are `1`, then `2 .. n+1`, then `99`. -/
theorem runScript_okRun (cfg : Config) (cv portfolioPdf recPdf : List Nat)
    (items : List BatchItem) (g lg : String) (rest : List String)
    (htag : lineHasTag 1 lg = true) (hok : loginOk lg = true) :
    cmdTags (runScript cfg cv portfolioPdf recPdf []
        (g :: lg :: (okInput 2 items.length ++ rest)) items).trace =
      1 :: ((List.range items.length).map (fun i => 2 + i) ++ [99]) ∧
    (runScript cfg cv portfolioPdf recPdf []
        (g :: lg :: (okInput 2 items.length ++ rest)) items).rows =
      some (items.map rowOf) := by
  rw [runScript, connectGmail]
  dsimp only [readLine]
  rw [waitForTagged]
  simp only [htag, if_true, hok]
  have hb := runBatch_okInput cfg cv portfolioPdf recPdf items ⟨0, 1, 2, 3, 2⟩ 0 rest
  dsimp only at hb
  rw [hb.2.2]
  dsimp only [closeGmail]
  constructor
  · rw [cmdTags_append, cmdTags_append, hb.1]
    simp [cmdTags]
  · rw [hb.2.1]

/-- Shared concrete fixtures for counterexamples and witnesses. -/
def blankTarget : Target := ⟨"F", "L", "Pos", "O", "TE", "S", "Su", "p1", "p2", "p3", "p4"⟩

def blankItem : BatchItem := ⟨blankTarget, none, "g", "D", "T"⟩

def cfg0 : Config := ⟨"N", "P", "E", "W"⟩

def conn0 : Conn := ⟨0, 1, 2, 3, 2⟩

/-- C2 (amended): within one session the command tags (LOGIN `a1`, APPEND
`a2 ..`, LOGOUT `a99`) are strictly increasing and pairwise distinct provided
at most 97 APPENDs are performed; the hardcoded LOGOUT tag `a99` bounds the
sequence. -/
theorem c2_tags_strictly_increasing (cfg : Config) (cv portfolioPdf recPdf : List Nat)
    (items : List BatchItem) (g lg : String) (rest : List String)
    (htag : lineHasTag 1 lg = true) (hok : loginOk lg = true)
    (h97 : items.length ≤ 97) :
    List.Pairwise (· < ·)
      (cmdTags (runScript cfg cv portfolioPdf recPdf []
        (g :: lg :: (okInput 2 items.length ++ rest)) items).trace) := by
  rw [(runScript_okRun cfg cv portfolioPdf recPdf items g lg rest htag hok).1]
  refine List.Pairwise.cons ?_ ?_
  · intro x hx
    simp only [List.mem_append, List.mem_map, List.mem_range, List.mem_singleton] at hx
    rcases hx with ⟨i, hi, rfl⟩ | rfl <;> omega
  · rw [List.pairwise_append]
    refine ⟨?_, by simp, ?_⟩
    · exact (List.pairwise_lt_range _).map _ (fun a b hab => by omega)
    · intro x hx y hy
      simp only [List.mem_map, List.mem_range] at hx
      simp only [List.mem_singleton] at hy
      obtain ⟨i, hi, rfl⟩ := hx
      subst hy
      omega

/-- Witness for the amended C2 at a three-APPEND session. -/
theorem c2_tags_strictly_increasing_witness :
    List.Pairwise (· < ·)
      (cmdTags (runScript cfg0 [] [] [] []
        ("* OK ready" :: "a1 OK go" :: (okInput 2 (List.replicate 3 blankItem).length ++ ["bye"]))
        (List.replicate 3 blankItem)).trace) :=
  c2_tags_strictly_increasing cfg0 [] [] [] (List.replicate 3 blankItem)
    "* OK ready" "a1 OK go" ["bye"] (by decide) (by decide) (by decide)

/-- C2 counterexample: on a session that performs 98 APPENDs, the 98th APPEND
is tagged `a99` and the hardcoded LOGOUT tag `a99` repeats it — two commands
of the session share a tag, and the tag sequence is not strictly increasing. -/
theorem c2_counterexample :
    (cmdTags (runScript cfg0 [] [] [] []
        ("* OK ready" :: "a1 OK go" :: (okInput 2 98 ++ ["bye"]))
        (List.replicate 98 blankItem)).trace).count 99 = 2 ∧
    ¬ List.Pairwise (· < ·)
      (cmdTags (runScript cfg0 [] [] [] []
        ("* OK ready" :: "a1 OK go" :: (okInput 2 98 ++ ["bye"]))
        (List.replicate 98 blankItem)).trace) := by
  have h := (runScript_okRun cfg0 [] [] [] (List.replicate 98 blankItem)
    "* OK ready" "a1 OK go" ["bye"] (by decide) (by decide)).1
  simp only [List.length_replicate] at h
  rw [h]
  constructor
  · decide
  · decide

/-- C3 (amended): a continuation line not starting with `+` makes that APPEND
fail without sending the literal, but the session is not closed: the loop
continues, and the remaining targets are processed on the same connection
(same handles, counter advanced by one) with no close event in between. -/
theorem c3_session_reused_after_violation (cfg : Config) (cv portfolioPdf recPdf : List Nat)
    (conn : Conn) (idx : Nat) (it : BatchItem) (its : List BatchItem)
    (resp : String) (rest : List String) (hplus : startsPlus resp = false) :
    runBatch cfg cv portfolioPdf recPdf [] conn idx (resp :: rest) (it :: its) =
      ⟨WriteEvent.cmd conn.cmd (appendText (utf8Bytes (composeMime cfg it.target it.emlDate
            ("----=_Part_" ++ Nat.repr (idx + 1) ++ "_" ++ it.guidPart)
            cv portfolioPdf recPdf it.clBytes)).length) ::
          (runBatch cfg cv portfolioPdf recPdf [] { conn with cmd := conn.cmd + 1 }
            (idx + 1) rest its).trace,
        rowOf it :: (runBatch cfg cv portfolioPdf recPdf [] { conn with cmd := conn.cmd + 1 }
            (idx + 1) rest its).rows,
        (runBatch cfg cv portfolioPdf recPdf [] { conn with cmd := conn.cmd + 1 }
            (idx + 1) rest its).result⟩ := by
  rw [runBatch]
  simp only [List.filter_nil, List.isEmpty_nil, if_true]
  rw [sendImapDraft]
  simp only [readLine, Option.getD_some, hplus, Bool.not_false, if_true]
  simp

/-- Witness for the amended C3: one rejected target followed by one more. -/
theorem c3_session_reused_after_violation_witness :
    runBatch cfg0 [] [] [] [] conn0 0 ["a2 NO [CANNOT] quota exceeded", "+", "a3 OK"]
        [blankItem, blankItem] =
      ⟨WriteEvent.cmd conn0.cmd (appendText (utf8Bytes (composeMime cfg0 blankItem.target
            blankItem.emlDate ("----=_Part_" ++ Nat.repr 1 ++ "_" ++ blankItem.guidPart)
            [] [] [] blankItem.clBytes)).length) ::
          (runBatch cfg0 [] [] [] [] { conn0 with cmd := conn0.cmd + 1 } 1
            ["+", "a3 OK"] [blankItem]).trace,
        rowOf blankItem :: (runBatch cfg0 [] [] [] [] { conn0 with cmd := conn0.cmd + 1 } 1
            ["+", "a3 OK"] [blankItem]).rows,
        (runBatch cfg0 [] [] [] [] { conn0 with cmd := conn0.cmd + 1 } 1
            ["+", "a3 OK"] [blankItem]).result⟩ :=
  c3_session_reused_after_violation cfg0 [] [] [] conn0 0 blankItem [blankItem]
    "a2 NO [CANNOT] quota exceeded" ["+", "a3 OK"] (by decide)

/-- C3 counterexample: after the first APPEND's continuation is rejected (a
ProtocolViolation), the very next target's APPEND (tag 3) is still issued on
the same, never-closed session, whose handles are unchanged. -/
theorem c3_counterexample :
    cmdTags (runBatch cfg0 [] [] [] [] conn0 0
        ["a2 NO [CANNOT] quota exceeded", "+", "a3 OK"] [blankItem, blankItem]).trace = [2, 3] ∧
    (runBatch cfg0 [] [] [] [] conn0 0
        ["a2 NO [CANNOT] quota exceeded", "+", "a3 OK"] [blankItem, blankItem]).trace.countP
        isRawEvent = 1 ∧
    (runBatch cfg0 [] [] [] [] conn0 0
        ["a2 NO [CANNOT] quota exceeded", "+", "a3 OK"] [blankItem, blankItem]).result =
      some (⟨0, 1, 2, 3, 4⟩, []) := by
  refine ⟨by decide, by decide, by decide⟩

/-- The rows surfaced by a completed loop depend only on the items. -/
theorem runBatch_rows_completed (cfg : Config) (cv portfolioPdf recPdf : List Nat) :
    ∀ (items : List BatchItem) (conn : Conn) (idx : Nat) (input : List String)
      (p : Conn × List String),
    (runBatch cfg cv portfolioPdf recPdf [] conn idx input items).result = some p →
    (runBatch cfg cv portfolioPdf recPdf [] conn idx input items).rows = items.map rowOf
  | [], _, _, _, _, _ => rfl
  | it :: its, conn, idx, input, p, h => by
    rw [runBatch] at h ⊢
    simp only [List.filter_nil, List.isEmpty_nil, if_true] at h ⊢
    split at h
    · simp at h
    · rename_i ok conn2 input2 heq
      dsimp only at h ⊢
      have ih := runBatch_rows_completed cfg cv portfolioPdf recPdf its conn2 (idx + 1) input2 p h
      rw [List.map_cons, ih]

/-- C5 (amended): a completed batch surfaces exactly one tracker row per
message, in order, so later messages are still reported after an earlier
failure; but every row carries the constant status `Generated` — the rows are
a function of the items alone and record neither the per-message success
boolean nor the server response line. -/
theorem c5_rows_reported (cfg : Config) (cv portfolioPdf recPdf : List Nat)
    (items : List BatchItem) (conn : Conn) (idx : Nat) (input : List String)
    (p : Conn × List String)
    (hres : (runBatch cfg cv portfolioPdf recPdf [] conn idx input items).result = some p) :
    (runBatch cfg cv portfolioPdf recPdf [] conn idx input items).rows = items.map rowOf ∧
    (runBatch cfg cv portfolioPdf recPdf [] conn idx input items).rows.length = items.length ∧
    ∀ row ∈ (runBatch cfg cv portfolioPdf recPdf [] conn idx input items).rows,
      row.status = "Generated" := by
  have h := runBatch_rows_completed cfg cv portfolioPdf recPdf items conn idx input p hres
  refine ⟨h, by rw [h]; simp, ?_⟩
  rw [h]
  intro row hrow
  obtain ⟨it, -, rfl⟩ := List.mem_map.mp hrow
  rfl

/-- Witness for the amended C5: a batch whose single APPEND failed still
surfaces its one `Generated` row. -/
theorem c5_rows_reported_witness :
    (runBatch cfg0 [] [] [] [] conn0 0 ["a2 NO [CANNOT] quota exceeded"] [blankItem]).rows =
      [blankItem].map rowOf :=
  (c5_rows_reported cfg0 [] [] [] [blankItem] conn0 0 ["a2 NO [CANNOT] quota exceeded"]
    (⟨0, 1, 2, 3, 3⟩, []) (by decide)).1

/-- C5 counterexample: a run whose only APPEND was rejected (literal never
sent) surfaces exactly the same rows as a run whose APPEND succeeded — the
failure is not recorded in any surfaced result, and no
success/serverResponseLine pair exists per message. -/
theorem c5_counterexample :
    (runBatch cfg0 [] [] [] [] conn0 0 ["a2 NO [CANNOT] quota exceeded"] [blankItem]).rows =
      (runBatch cfg0 [] [] [] [] conn0 0 ["+", "a2 OK"] [blankItem]).rows ∧
    (runBatch cfg0 [] [] [] [] conn0 0
        ["a2 NO [CANNOT] quota exceeded"] [blankItem]).trace.countP isRawEvent = 0 ∧
    (runBatch cfg0 [] [] [] [] conn0 0 ["+", "a2 OK"] [blankItem]).trace.countP isRawEvent = 1 := by
  refine ⟨by decide, by decide, by decide⟩

/-- C9 (amended): whenever the script reaches its export (the batch loop ran
to completion — including after APPENDs that failed via rejected continuation
or non-OK completion), the trace ends with the `Close-Gmail` sequence: tagged
LOGOUT, TLS close, socket close.  (No guarantee exists on abort paths: there
is no `try/finally` in the script.) -/
theorem c9_close_on_completion (cfg : Config) (cv portfolioPdf recPdf : List Nat)
    (existing : List TrackerRow) (input : List String) (items : List BatchItem)
    (h : (runScript cfg cv portfolioPdf recPdf existing input items).rows.isSome = true) :
    ∃ pre, (runScript cfg cv portfolioPdf recPdf existing input items).trace =
      pre ++ [WriteEvent.cmd 99 "LOGOUT", WriteEvent.closeSsl, WriteEvent.closeTcp] := by
  rw [runScript] at h ⊢
  split at h
  · simp at h
  · dsimp only at h ⊢
    rename_i conn1 input1 heq1
    split at h
    · simp at h
    · rename_i conn2 input2 heq2
      dsimp only [closeGmail]
      refine ⟨(connectGmail cfg.email cfg.gmail_app_password input).trace ++
        (runBatch cfg cv portfolioPdf recPdf existing conn1 0 input1 items).trace, ?_⟩
      simp [List.append_assoc]

/-- Witness for the amended C9: a run with a failed APPEND that still reaches
LOGOUT and both closes. -/
theorem c9_close_on_completion_witness :
    (runScript cfg0 [] [] [] [] ["* OK ready", "a1 OK go", "a2 NO bad", "bye"]
        [blankItem]).rows.isSome = true ∧
    ∃ pre, (runScript cfg0 [] [] [] [] ["* OK ready", "a1 OK go", "a2 NO bad", "bye"]
        [blankItem]).trace =
      pre ++ [WriteEvent.cmd 99 "LOGOUT", WriteEvent.closeSsl, WriteEvent.closeTcp] :=
  ⟨by decide, c9_close_on_completion cfg0 [] [] [] []
    ["* OK ready", "a1 OK go", "a2 NO bad", "bye"] [blankItem] (by decide)⟩

/-- C9 counterexample: when the stream ends while an APPEND awaits its tagged
completion, the completion-wait loop never terminates (`ReadLine` yields null
forever): `Close-Gmail` is never executed — no LOGOUT is written (tags stop at
2), the TLS stream and socket are never closed, and nothing is exported. -/
theorem c9_counterexample :
    (runScript cfg0 [] [] [] [] ["* OK ready", "a1 OK go", "+"] [blankItem]).rows = none ∧
    (runScript cfg0 [] [] [] [] ["* OK ready", "a1 OK go", "+"]
        [blankItem]).trace.countP (fun e => e == WriteEvent.closeSsl) = 0 ∧
    (runScript cfg0 [] [] [] [] ["* OK ready", "a1 OK go", "+"]
        [blankItem]).trace.countP (fun e => e == WriteEvent.closeTcp) = 0 ∧
    cmdTags (runScript cfg0 [] [] [] [] ["* OK ready", "a1 OK go", "+"] [blankItem]).trace =
      [1, 2] := by
  refine ⟨by decide, by decide, by decide, by decide⟩

end ApplyDraft
